import Mathlib

/-
  Verification development for the smartSalud appointment system.

  The repository snapshot contains the design documents (ARCHITECTURE.md, the
  CLAUDE.md project guide, the scalability analysis) and the React dashboard
  sources; the Python backend packages they describe (src/services,
  src/nlp, src/database) are not part of the snapshot.  Backend behaviour is
  therefore modelled from the specification, while the dashboard components
  (AppointmentScheduler, Appointments page) are embedded directly from the
  JSX sources.  Times are minutes, timestamps are natural numbers.
-/

namespace SmartSalud

/-- Appointment status values of the specification data model (section 3).
The constructor RESCHEDULED is the transient reschedule marker of the
specification; the repository documents declare a smaller enum, recorded
separately in statusEnumNames. -/
inductive Status where
  | PENDING
  | CONFIRMED
  | CANCELLED
  | RESCHEDULED
  | COMPLETED
  | NO_SHOW
deriving DecidableEq, Repr

/-- Status names declared by the repository itself: the appointments table
comment in src/ARCHITECTURE.md (PENDING/CONFIRMED/CANCELLED/COMPLETED/NO_SHOW)
and the Status enum list in src/unnamed/part_007. -/
def statusEnumNames : List String :=
  ["PENDING", "CONFIRMED", "CANCELLED", "COMPLETED", "NO_SHOW"]

/-- Intent enum as declared by the repository: src/ARCHITECTURE.md lists
intents.py as the Intent enum (CONFIRM, CANCEL, UNKNOWN), and
src/unnamed/part_007 repeats the same three intents. -/
inductive Intent where
  | CONFIRM
  | CANCEL
  | UNKNOWN
deriving DecidableEq, Repr

/-- Intent names declared by the repository documents (three members). -/
def intentEnumNames : List String :=
  ["CONFIRM", "CANCEL", "UNKNOWN"]

/-- Half-open interval overlap test of the specification: two intervals
overlap when first.start < second.end and second.start < first.end. -/
def overlapB (s1 e1 s2 e2 : Nat) : Bool :=
  decide (s1 < e2) && decide (s2 < e1)

/-- Persisted appointment row.  Modelled from the spec: the Appointment data
model of section 3 (SQLAlchemy models.py is not in the snapshot); fields not
needed for the verified properties (notes, calendar event id, timestamps)
are omitted. -/
structure PAppt where
  id : Nat
  doctorId : Nat
  patientId : Nat
  start : Nat
  duration : Nat
  status : Status
deriving DecidableEq, Repr

/-- An appointment counts against availability while PENDING or CONFIRMED. -/
def activeStatus (s : Status) : Bool :=
  s == Status.PENDING || s == Status.CONFIRMED

/-- Two persisted appointments violate the no-double-booking invariant when
they belong to the same doctor, both have active status, and their half-open
intervals overlap. -/
def apptsOverlap (a b : PAppt) : Bool :=
  decide (a.doctorId = b.doctorId) && activeStatus a.status && activeStatus b.status &&
    overlapB a.start (a.start + a.duration) b.start (b.start + b.duration)

/-- Executable statement of the core invariant: no two rows of the store
overlap in the sense of apptsOverlap. -/
def noOverlapDb : List PAppt → Bool
  | [] => true
  | a :: rest => rest.all (fun b => !apptsOverlap a b) && noOverlapDb rest

/-- Conflict check of the booking service.  Modelled from the spec: the
overlap query (existing.start < candidate.end AND existing.end >
candidate.start against active appointments of the doctor) that
booking_service.py re-runs under SELECT FOR UPDATE. -/
def conflictExists (db : List PAppt) (docId s dur : Nat) : Bool :=
  db.any (fun a =>
    decide (a.doctorId = docId) && activeStatus a.status &&
      overlapB a.start (a.start + a.duration) s (s + dur))

/-- Error taxonomy of the booking domain (specification section 7). -/
inductive BookingError where
  | InvalidRangeError
  | InvalidSlotError
  | SlotConflictError
  | InvalidTransitionError
  | BookingTimeoutError
  | PersistenceError
deriving DecidableEq, Repr

/-- Fresh primary key, standing for the database sequence. -/
def freshId (db : List PAppt) : Nat :=
  db.foldr (fun a m => Nat.max m (a.id + 1)) 0

/-- Booking commit.  Modelled from the spec: book(doctor, patient,
appointmentType, start) of section 4.2; the per-doctor lock serialises the
re-validate-and-insert step, so the committed step is a function of the
store.  Duration must be positive; a conflict with an active appointment of
the doctor fails with SlotConflictError; otherwise a PENDING appointment is
inserted atomically. -/
def book (db : List PAppt) (docId patientId s dur : Nat) :
    Except BookingError (List PAppt) :=
  if dur = 0 then Except.error BookingError.InvalidSlotError
  else if conflictExists db docId s dur then Except.error BookingError.SlotConflictError
  else Except.ok (⟨freshId db, docId, patientId, s, dur, Status.PENDING⟩ :: db)

/-- Status transition requests of the state machine table (section 4.3). -/
inductive TransitionEvent where
  | confirm
  | cancel
  | resched (newStart : Nat)
  | complete
  | noShow
deriving DecidableEq, Repr

/-- Transition table of section 4.3.  Modelled from the spec: PENDING may
confirm, cancel or reschedule; CONFIRMED may cancel, reschedule, complete
(post-date) or no-show (post-date); a reschedule re-enters PENDING at the
new time; every other request is invalid.  The post-date qualifier of the
table makes complete and no-show valid only once the appointment start time
has passed, hence those rows take the request instant and the appointment
start into account; a pre-date complete or no-show request is outside the
table. -/
def transition (st : Status) (e : TransitionEvent) (now start : Nat) : Option Status :=
  match st, e with
  | Status.PENDING, TransitionEvent.confirm => some Status.CONFIRMED
  | Status.PENDING, TransitionEvent.cancel => some Status.CANCELLED
  | Status.PENDING, TransitionEvent.resched _ => some Status.PENDING
  | Status.CONFIRMED, TransitionEvent.cancel => some Status.CANCELLED
  | Status.CONFIRMED, TransitionEvent.resched _ => some Status.PENDING
  | Status.CONFIRMED, TransitionEvent.complete =>
      if start < now then some Status.COMPLETED else none
  | Status.CONFIRMED, TransitionEvent.noShow =>
      if start < now then some Status.NO_SHOW else none
  | _, _ => none

/-- Calendar Sync event emitted by a successful transition. -/
structure SyncEvent where
  appointmentId : Nat
  newStatus : Status
  newStart : Nat
deriving DecidableEq, Repr

/-- Start time after an event: a reschedule carries the new start, every
other event keeps the current one. -/
def eventNewStart (a : PAppt) : TransitionEvent → Nat
  | TransitionEvent.resched n => n
  | _ => a.start

/-- State machine layer applied to one appointment at a given instant.
Modelled from the spec: a request outside the table, including a pre-date
complete or no-show, fails with InvalidTransitionError and a successful
transition updates the row and triggers exactly one Calendar Sync event with
the appointment id, the new status and the new start. -/
def applyTransition (a : PAppt) (e : TransitionEvent) (now : Nat) :
    Except BookingError (PAppt × List SyncEvent) :=
  match transition a.status e now a.start with
  | none => Except.error BookingError.InvalidTransitionError
  | some s2 =>
      let ns := eventNewStart a e
      Except.ok ({ a with status := s2, start := ns }, [⟨a.id, s2, ns⟩])

/-- Reschedule inside the booking transaction.  Modelled from the spec:
reschedule(appointment, newStart) of section 4.2 locks the doctor, verifies
no overlap excluding the appointment being moved, updates the start time and
passes through the transient RESCHEDULED marker immediately followed by
PENDING within the same transaction; the returned status list is the
sequence of status values the row takes during the transaction. -/
def rescheduleDb (db : List PAppt) (aid newStart : Nat) :
    Except BookingError (List PAppt × List Status) :=
  match db.find? (fun b => decide (b.id = aid)) with
  | none => Except.error BookingError.InvalidSlotError
  | some a =>
      let others := db.filter (fun b => decide (b.id ≠ aid))
      if conflictExists others a.doctorId newStart a.duration then
        Except.error BookingError.SlotConflictError
      else
        Except.ok ({ a with start := newStart, status := Status.PENDING } :: others,
          [Status.RESCHEDULED, Status.PENDING])

/-- Status transition applied to the persisted store at a given instant.
Modelled from the spec: the state machine validates the request, including
the post-date guard on complete and no-show; a reschedule additionally
re-checks the conflict (excluding the row being moved) before committing. -/
def transitionDb (db : List PAppt) (aid : Nat) (e : TransitionEvent) (now : Nat) :
    Except BookingError (List PAppt) :=
  match db.find? (fun b => decide (b.id = aid)) with
  | none => Except.error BookingError.InvalidTransitionError
  | some a =>
      match transition a.status e now a.start with
      | none => Except.error BookingError.InvalidTransitionError
      | some s2 =>
          let others := db.filter (fun b => decide (b.id ≠ aid))
          let ns := eventNewStart a e
          match e with
          | TransitionEvent.resched _ =>
              if conflictExists others a.doctorId ns a.duration then
                Except.error BookingError.SlotConflictError
              else Except.ok ({ a with status := s2, start := ns } :: others)
          | _ => Except.ok ({ a with status := s2, start := ns } :: others)

/-- Core operations that mutate the persisted appointment store. -/
inductive Op where
  | opBook (docId patientId start dur : Nat)
  | opResched (aid newStart : Nat)
  | opTransitionReq (aid : Nat) (e : TransitionEvent) (now : Nat)
deriving DecidableEq, Repr

/-- One committed step of the store. -/
def applyOp (db : List PAppt) : Op → Except BookingError (List PAppt)
  | Op.opBook docId pid s dur => book db docId pid s dur
  | Op.opResched aid ns => (rescheduleDb db aid ns).map (fun r => r.1)
  | Op.opTransitionReq aid e now => transitionDb db aid e now

/-- Persisted states reachable from the empty store through committed core
operations. -/
inductive Reachable : List PAppt → Prop where
  | empty : Reachable []
  | step {db db2 : List PAppt} (o : Op) : Reachable db → applyOp db o = Except.ok db2 →
      Reachable db2

/-- Circuit breaker modes (specification section 3, CircuitState). -/
inductive CircuitMode where
  | CLOSED
  | OPEN
  | HALF_OPEN
deriving DecidableEq, Repr

/-- Process-wide circuit state for the primary remote classifier. -/
structure CircuitState where
  mode : CircuitMode
  failureCount : Nat
  lastFailureTime : Nat
  nextRetryTime : Nat
deriving DecidableEq, Repr

/-- Circuit breaker configuration: failure threshold and exponential backoff
parameters (base times 2 to the attempt, capped). -/
structure CircuitConfig where
  threshold : Nat
  backoffBase : Nat
  backoffCap : Nat
deriving DecidableEq, Repr

/-- Naive substring test on character lists, standing for the regex match of
a literal pattern. -/
def containsSub (pat : List Char) : List Char → Bool
  | [] => pat.isEmpty
  | c :: rest => pat.isPrefixOf (c :: rest) || containsSub pat rest

/-- Static ordered fallback rule table.  Modelled from the spec: patterns.py
is not in the snapshot; the design notes prescribe a static ordered list of
pattern-to-intent pairs and the flows map utterances containing confirmo to
CONFIRM and cancelo to CANCEL, everything else to UNKNOWN. -/
def fallbackRules : List (String × Intent) :=
  [("confirm", Intent.CONFIRM), ("cancel", Intent.CANCEL)]

/-- Deterministic regex-pattern fallback: first rule whose pattern occurs in
the utterance wins, otherwise UNKNOWN. -/
def fallbackClassify (utterance : String) : Intent :=
  match fallbackRules.find? (fun r => containsSub r.1.toList utterance.toList) with
  | some r => r.2
  | none => Intent.UNKNOWN

/-- Result of a classification: intent, confidence, and whether it came from
the fallback path. -/
structure ClassifyResult where
  intent : Intent
  confidence : ℚ
  fromFallback : Bool
deriving DecidableEq, Repr

/-- Circuit state after one more consecutive remote failure: the count
increments atomically; once it reaches the threshold the circuit opens with
an exponential-backoff retry time, base times 2 to the excess attempt,
capped. -/
def recordFailure (cfg : CircuitConfig) (cs : CircuitState) (now : Nat) : CircuitState :=
  let fc := cs.failureCount + 1
  if cfg.threshold ≤ fc then
    { mode := CircuitMode.OPEN, failureCount := fc, lastFailureTime := now,
      nextRetryTime := now + Nat.min (cfg.backoffBase * 2 ^ (fc - cfg.threshold)) cfg.backoffCap }
  else
    { cs with failureCount := fc, lastFailureTime := now }

/-- Circuit state after a remote success: failure count resets and the
circuit closes. -/
def recordSuccess (cs : CircuitState) : CircuitState :=
  { cs with mode := CircuitMode.CLOSED, failureCount := 0 }

/-- Intent classification guarded by the circuit breaker.  Modelled from the
spec: nlp/service.py is not in the snapshot; section 4.4 prescribes that an
OPEN circuit whose retry time has not elapsed skips the remote call entirely
and answers from the fallback with confidence 0.7; otherwise the primary
remote classifier is tried once (the remote argument stands for the outcome
of that bounded call, none meaning failure or timeout) and a failure is
absorbed by the same fallback.  The third component counts remote-call
attempts made for this utterance. -/
def classify (cfg : CircuitConfig) (cs : CircuitState) (now : Nat) (utterance : String)
    (remote : Option (Intent × ℚ)) : ClassifyResult × CircuitState × Nat :=
  match cs.mode with
  | CircuitMode.OPEN =>
      if now < cs.nextRetryTime then
        (⟨fallbackClassify utterance, 0.7, true⟩, cs, 0)
      else
        match remote with
        | some (i, c) => (⟨i, c, false⟩, recordSuccess cs, 1)
        | none => (⟨fallbackClassify utterance, 0.7, true⟩, recordFailure cfg cs now, 1)
  | _ =>
      match remote with
      | some (i, c) => (⟨i, c, false⟩, recordSuccess cs, 1)
      | none => (⟨fallbackClassify utterance, 0.7, true⟩, recordFailure cfg cs now, 1)

/-- Weekly availability window of a doctor (day of week, start, end, slot
granularity; granularity defaults to the appointment-type duration). -/
structure ScheduleTemplate where
  dayOfWeek : Nat
  startTime : Nat
  endTime : Nat
  granularity : Option Nat
deriving DecidableEq, Repr

/-- Doctor reference data. -/
structure Doctor where
  id : Nat
  active : Bool
  templates : List ScheduleTemplate
deriving DecidableEq, Repr

/-- Ephemeral slot: doctor, start, end, availability flag. -/
structure Slot where
  doctorId : Nat
  start : Nat
  finish : Nat
  isAvailable : Bool
deriving DecidableEq, Repr

/-- Candidate start times of one window: stepped at the granularity from the
window start while start + duration stays within the window end. -/
def candidateStarts (winStart winEnd step dur : Nat) : List Nat :=
  if step = 0 ∨ winEnd < winStart + dur then []
  else (List.range ((winEnd - dur - winStart) / step + 1)).map (fun i => winStart + i * step)

/-- Availability of one candidate: no active appointment of the doctor
overlaps it. -/
def slotFree (db : List PAppt) (docId s dur : Nat) : Bool :=
  !conflictExists db docId s dur

/-- Slot generation for one day.  Modelled from the spec: the availability
service is not in the snapshot; section 4.1 prescribes matching the weekday
templates, stepping candidates at the template granularity (default the
appointment-type duration) while start + duration stays within the window,
de-duplicating candidates and marking each against the overlap test. -/
def generateSlotsForDay (doc : Doctor) (weekday dur : Nat) (db : List PAppt) : List Slot :=
  if !doc.active then []
  else
    let matching := doc.templates.filter (fun t => decide (t.dayOfWeek = weekday))
    let cands := (matching.map
      (fun t => candidateStarts t.startTime t.endTime (t.granularity.getD dur) dur)).flatten
    cands.eraseDups.map (fun s => ⟨doc.id, s, s + dur, slotFree db doc.id s dur⟩)

/-- Start times offered as available for one day. -/
def availableStarts (doc : Doctor) (weekday dur : Nat) (db : List PAppt) : List Nat :=
  ((generateSlotsForDay doc weekday dur db).filter (fun sl => sl.isAvailable)).map
    (fun sl => sl.start)

/-- Repeated booking of the identical slot: the per-doctor lock serialises
concurrent calls, so N concurrent identical requests commit one after the
other against the evolving store.  Returns the final store, the number of
successes and the number of SlotConflictError failures. -/
def bookRepeat (db : List PAppt) (docId pid s dur : Nat) : Nat → List PAppt × Nat × Nat
  | 0 => (db, 0, 0)
  | n + 1 =>
      match book db docId pid s dur with
      | Except.ok db2 =>
          let r := bookRepeat db2 docId pid s dur n
          (r.1, r.2.1 + 1, r.2.2)
      | Except.error BookingError.SlotConflictError =>
          let r := bookRepeat db docId pid s dur n
          (r.1, r.2.1, r.2.2 + 1)
      | Except.error _ =>
          let r := bookRepeat db docId pid s dur n
          (r.1, r.2.1, r.2.2)

/-- Date entry produced by getAvailableDates in the Appointments page.  The
absolute day number stands for the full calendar date whose day-of-month,
month and year the JSX code stores; the weekday follows the JavaScript
convention with 0 for Sunday. -/
structure DateEntry where
  absDay : Nat
  weekday : Nat
  isAvailable : Bool
deriving DecidableEq, Repr

/-- Embedding of getAvailableDates from
src/frontend/src/pages/Appointments.jsx: for offsets 0 to 29 from today the
date today + i is emitted with isAvailable true, except that Sundays
(getDay() = 0) are skipped.  The weekday of today + i days is
(todayWeekday + i) mod 7. -/
def getAvailableDates (todayAbs todayWeekday : Nat) : List DateEntry :=
  (List.range 30).filterMap (fun i =>
    let wd := (todayWeekday + i) % 7
    if wd = 0 then none
    else some ⟨todayAbs + i, wd, true⟩)

/-- Entry of the availableDates prop of AppointmentScheduler (the month and
year fields of the JSX object are rendering data and are omitted). -/
structure SchedDateObj where
  date : Nat
  isAvailable : Bool
deriving DecidableEq, Repr

/-- Entry of the timeSlots prop of AppointmentScheduler. -/
structure SchedTimeSlot where
  time : String
  isAvailable : Bool
deriving DecidableEq, Repr

/-- Selection state of the AppointmentScheduler component. -/
structure SchedulerState where
  selectedDate : Option Nat
  selectedTime : Option String
deriving DecidableEq, Repr

/-- Embedding of handleDateClick from src/unnamed/part_001: look the clicked
day up in availableDates; only when an entry is found and is available are
selectedDate set, selectedTime cleared and onDateSelect invoked.  The second
component is the payload passed to onDateSelect (none when the callback is
not invoked); the full Date built from the viewed month is rendering data
and is represented by the clicked day. -/
def handleDateClick (availableDates : List SchedDateObj) (st : SchedulerState)
    (date : Nat) : SchedulerState × Option Nat :=
  match availableDates.find? (fun d => decide (d.date = date)) with
  | some dObj =>
      if dObj.isAvailable then
        ({ selectedDate := some date, selectedTime := none }, some date)
      else (st, none)
  | none => (st, none)

/-- Embedding of handleTimeClick from src/unnamed/part_001: look the clicked
time up in timeSlots; only when a slot is found and is available are
selectedTime set and onTimeSelect invoked. -/
def handleTimeClick (timeSlots : List SchedTimeSlot) (st : SchedulerState)
    (time : String) : SchedulerState × Option String :=
  match timeSlots.find? (fun sl => decide (sl.time = time)) with
  | some sl =>
      if sl.isAvailable then
        ({ st with selectedTime := some time }, some time)
      else (st, none)
  | none => (st, none)

/-- Doctor of the section 8 scenario: active, one Monday template from 09:00
(minute 540) to 10:00 (minute 600) with default granularity. -/
def doctorA : Doctor := ⟨1, true, [⟨1, 540, 600, none⟩]⟩

/-- Circuit configuration used by the concrete witnesses. -/
def cfg0 : CircuitConfig := ⟨3, 10, 300⟩

/-- Open circuit whose retry time has not yet elapsed at instant 50. -/
def cs0 : CircuitState := ⟨CircuitMode.OPEN, 3, 0, 100⟩

/-- Closed circuit used by the concrete witnesses. -/
def cs1 : CircuitState := ⟨CircuitMode.CLOSED, 0, 0, 0⟩

lemma overlapB_eq_true {s1 e1 s2 e2 : Nat} :
    overlapB s1 e1 s2 e2 = true ↔ s1 < e2 ∧ s2 < e1 := by
  simp [overlapB]

lemma apptsOverlap_eq_true {a b : PAppt} :
    apptsOverlap a b = true ↔
      a.doctorId = b.doctorId ∧ activeStatus a.status = true ∧ activeStatus b.status = true ∧
        a.start < b.start + b.duration ∧ b.start < a.start + a.duration := by
  simp [apptsOverlap, overlapB, and_assoc]

lemma apptsOverlap_false_symm {a b : PAppt} (h : apptsOverlap a b = false) :
    apptsOverlap b a = false := by
  rw [← Bool.not_eq_true] at h ⊢
  rw [apptsOverlap_eq_true] at h ⊢
  rintro ⟨h1, h2, h3, h4, h5⟩
  exact h ⟨h1.symm, h3, h2, h5, h4⟩

lemma noOverlapDb_eq_true {db : List PAppt} :
    noOverlapDb db = true ↔ List.Pairwise (fun a b => apptsOverlap a b = false) db := by
  induction db with
  | nil => simp [noOverlapDb]
  | cons a rest ih =>
      simp [noOverlapDb, List.pairwise_cons, ih, List.all_eq_true]

lemma pairwise_overlap_of_mem {db : List PAppt}
    (h : List.Pairwise (fun a b => apptsOverlap a b = false) db)
    {a b : PAppt} (ha : a ∈ db) (hb : b ∈ db) (hne : a ≠ b) :
    apptsOverlap a b = false :=
  List.Pairwise.forall (fun _ _ hxy => apptsOverlap_false_symm hxy) h ha hb hne

lemma conflictExists_eq_false {db : List PAppt} {docId s dur : Nat} :
    conflictExists db docId s dur = false ↔
      ∀ a ∈ db, ¬(a.doctorId = docId ∧ activeStatus a.status = true ∧
        a.start < s + dur ∧ s < a.start + a.duration) := by
  simp [conflictExists, overlapB, and_assoc]

/-- C8: for doctor A with a Monday 09:00 to 10:00 template and a 20-minute
appointment type, generateSlots offers exactly the start times 09:00, 09:20
and 09:40 (minutes 540, 560, 580); after booking 09:20 the regenerated
available starts are exactly 09:00 and 09:40. -/
theorem slot_scenario :
    availableStarts doctorA 1 20 [] = [540, 560, 580] ∧
    book [] 1 7 560 20 = Except.ok [⟨0, 1, 7, 560, 20, Status.PENDING⟩] ∧
    availableStarts doctorA 1 20 [⟨0, 1, 7, 560, 20, Status.PENDING⟩] = [540, 580] :=
  ⟨rfl, rfl, rfl⟩

/-- C9: every entry produced by getAvailableDates lies between today and 29
days ahead, is never a Sunday, and is marked available. -/
theorem getAvailableDates_range (todayAbs todayWeekday : Nat) (e : DateEntry)
    (he : e ∈ getAvailableDates todayAbs todayWeekday) :
    todayAbs ≤ e.absDay ∧ e.absDay ≤ todayAbs + 29 ∧ e.weekday ≠ 0 ∧
      e.isAvailable = true := by
  simp only [getAvailableDates, List.mem_filterMap, List.mem_range] at he
  obtain ⟨i, hi, hcond⟩ := he
  by_cases h : (todayWeekday + i) % 7 = 0
  · simp [h] at hcond
  · simp only [h, if_false] at hcond
    have h2 := Option.some.inj hcond
    rw [← h2]
    refine ⟨?_, ?_, ?_, rfl⟩
    · show todayAbs ≤ todayAbs + i
      omega
    · show todayAbs + i ≤ todayAbs + 29
      omega
    · show (todayWeekday + i) % 7 ≠ 0
      exact h

/-- Witness for C9 at a concrete input. -/
theorem getAvailableDates_range_witness :
    100 ≤ (DateEntry.mk 100 4 true).absDay ∧
      (DateEntry.mk 100 4 true).absDay ≤ 100 + 29 ∧
      (DateEntry.mk 100 4 true).weekday ≠ 0 ∧
      (DateEntry.mk 100 4 true).isAvailable = true :=
  getAvailableDates_range 100 4 ⟨100, 4, true⟩ (by decide)

/-- C10: clicking a date that is absent from availableDates or marked
unavailable, and clicking a time that is absent from timeSlots or marked
unavailable, leaves the selection state unchanged and invokes no callback. -/
theorem scheduler_click_noop (availableDates : List SchedDateObj)
    (timeSlots : List SchedTimeSlot) (st : SchedulerState) (date : Nat) (time : String)
    (hd : ∀ d ∈ availableDates, d.date = date → d.isAvailable = false)
    (ht : ∀ sl ∈ timeSlots, sl.time = time → sl.isAvailable = false) :
    handleDateClick availableDates st date = (st, none) ∧
    handleTimeClick timeSlots st time = (st, none) := by
  constructor
  · unfold handleDateClick
    cases hf : availableDates.find? (fun d => decide (d.date = date)) with
    | none => rfl
    | some dObj =>
        have hmem : dObj ∈ availableDates := List.mem_of_find?_eq_some hf
        have hpred := List.find?_some hf
        have hun : dObj.isAvailable = false := hd dObj hmem (by simpa using hpred)
        simp [hun]
  · unfold handleTimeClick
    cases hf : timeSlots.find? (fun sl => decide (sl.time = time)) with
    | none => rfl
    | some sl =>
        have hmem : sl ∈ timeSlots := List.mem_of_find?_eq_some hf
        have hpred := List.find?_some hf
        have hun : sl.isAvailable = false := ht sl hmem (by simpa using hpred)
        simp [hun]

/-- Witness for C10 at concrete inputs: date 25 is present but unavailable
and date 26 is absent; the 09:40 slot is present but unavailable. -/
theorem scheduler_click_noop_witness :
    handleDateClick [SchedDateObj.mk 25 false] ⟨some 23, none⟩ 25 = (⟨some 23, none⟩, none) ∧
    handleTimeClick [SchedTimeSlot.mk "09:40 AM" false] ⟨some 23, none⟩ "09:40 AM" =
      (⟨some 23, none⟩, none) :=
  scheduler_click_noop [⟨25, false⟩] [⟨"09:40 AM", false⟩] ⟨some 23, none⟩ 25 "09:40 AM"
    (by decide) (by decide)

/-- C3: a status-transition request outside the section 4.3 table, including
a complete or no-show whose post-date qualifier does not hold, fails with
InvalidTransitionError leaving the row untouched, and a request inside the
table succeeds, updating the row and triggering exactly one Calendar Sync
event carrying the appointment id, the new status and the new start. -/
theorem transitionTable (a : PAppt) (e : TransitionEvent) (now : Nat) :
    (transition a.status e now a.start = none →
      applyTransition a e now = Except.error BookingError.InvalidTransitionError) ∧
    (∀ s2, transition a.status e now a.start = some s2 →
      applyTransition a e now =
        Except.ok ({ a with status := s2, start := eventNewStart a e },
          [⟨a.id, s2, eventNewStart a e⟩])) := by
  constructor
  · intro h
    unfold applyTransition
    rw [h]
  · intro s2 h
    unfold applyTransition
    rw [h]

/-- Witness for C3: a listed transition (PENDING confirm) succeeds with one
sync event, a post-date complete succeeds, while a request outside the table
(COMPLETED confirm) and a pre-date complete both fail. -/
theorem transitionTable_witness :
    applyTransition ⟨5, 1, 2, 540, 20, Status.PENDING⟩ TransitionEvent.confirm 0 =
      Except.ok (⟨5, 1, 2, 540, 20, Status.CONFIRMED⟩, [⟨5, Status.CONFIRMED, 540⟩]) ∧
    applyTransition ⟨5, 1, 2, 540, 20, Status.CONFIRMED⟩ TransitionEvent.complete 600 =
      Except.ok (⟨5, 1, 2, 540, 20, Status.COMPLETED⟩, [⟨5, Status.COMPLETED, 540⟩]) ∧
    applyTransition ⟨6, 1, 2, 540, 20, Status.COMPLETED⟩ TransitionEvent.confirm 600 =
      Except.error BookingError.InvalidTransitionError ∧
    applyTransition ⟨5, 1, 2, 540, 20, Status.CONFIRMED⟩ TransitionEvent.complete 500 =
      Except.error BookingError.InvalidTransitionError :=
  ⟨(transitionTable ⟨5, 1, 2, 540, 20, Status.PENDING⟩ TransitionEvent.confirm 0).2
      Status.CONFIRMED rfl,
    (transitionTable ⟨5, 1, 2, 540, 20, Status.CONFIRMED⟩ TransitionEvent.complete 600).2
      Status.COMPLETED (by decide),
    (transitionTable ⟨6, 1, 2, 540, 20, Status.COMPLETED⟩ TransitionEvent.confirm 600).1 rfl,
    (transitionTable ⟨5, 1, 2, 540, 20, Status.CONFIRMED⟩ TransitionEvent.complete 500).1
      (by decide)⟩

/-- C5 counterexample: RESCHEDULE_REQUEST is not a member of the intent enum
declared by the repository, which has exactly three members. -/
theorem resched_request_not_declared :
    "RESCHEDULE_REQUEST" ∉ intentEnumNames ∧ intentEnumNames.length = 3 := by
  decide

/-- C5 amended: for every utterance, circuit state and remote outcome,
classify returns an intent drawn from the closed declared set of the
repository, namely CONFIRM, CANCEL and UNKNOWN. -/
theorem classify_intent_closed (cfg : CircuitConfig) (cs : CircuitState) (now : Nat)
    (u : String) (remote : Option (Intent × ℚ)) :
    (classify cfg cs now u remote).1.intent ∈
      [Intent.CONFIRM, Intent.CANCEL, Intent.UNKNOWN] := by
  cases h : (classify cfg cs now u remote).1.intent <;> simp

/-- C7 counterexample: RESCHEDULED is not a member of the status enum the
repository declares, which has exactly five members, not six. -/
theorem rescheduled_not_declared :
    "RESCHEDULED" ∉ statusEnumNames ∧ statusEnumNames.length = 5 := by
  decide

/-- C7 amended: given no overlap excluding the appointment being moved,
rescheduleDb updates the start time and passes through the transient
RESCHEDULED marker immediately followed by PENDING within the same
transaction; RESCHEDULED is however not among the five declared members of
the repository status enum. -/
theorem reschedule_transient_marker (db : List PAppt) (aid newStart : Nat) (a : PAppt)
    (hfind : db.find? (fun b => decide (b.id = aid)) = some a)
    (hconf : conflictExists (db.filter (fun b => decide (b.id ≠ aid)))
      a.doctorId newStart a.duration = false) :
    rescheduleDb db aid newStart =
      Except.ok ({ a with start := newStart, status := Status.PENDING } ::
          db.filter (fun b => decide (b.id ≠ aid)),
        [Status.RESCHEDULED, Status.PENDING]) ∧
    "RESCHEDULED" ∉ statusEnumNames := by
  refine ⟨?_, by decide⟩
  unfold rescheduleDb
  rw [hfind]
  have hconf2 := hconf
  simp only [decide_not] at hconf2
  simp [hconf2, decide_not]

/-- Witness for C7 at a concrete input: moving the only appointment of
doctor 1 from 560 to 600. -/
theorem reschedule_transient_marker_witness :
    rescheduleDb [⟨0, 1, 7, 560, 20, Status.PENDING⟩] 0 600 =
      Except.ok ([⟨0, 1, 7, 600, 20, Status.PENDING⟩],
        [Status.RESCHEDULED, Status.PENDING]) ∧
    "RESCHEDULED" ∉ statusEnumNames :=
  reschedule_transient_marker [⟨0, 1, 7, 560, 20, Status.PENDING⟩] 0 600
    ⟨0, 1, 7, 560, 20, Status.PENDING⟩ (by decide) (by decide)

/-- C4: while the circuit is OPEN and the retry time has not elapsed,
classify makes zero remote-call attempts whatever the remote would have
answered, leaves the circuit state untouched and still returns the
deterministic fallback classification with confidence 0.7, whose intent is
drawn from the declared closed set; no remote failure reaches the caller. -/
theorem open_circuit_skips_remote (cfg : CircuitConfig) (cs : CircuitState) (now : Nat)
    (u : String) (remote : Option (Intent × ℚ))
    (hmode : cs.mode = CircuitMode.OPEN) (ht : now < cs.nextRetryTime) :
    classify cfg cs now u remote = (⟨fallbackClassify u, 0.7, true⟩, cs, 0) ∧
    (classify cfg cs now u remote).2.2 = 0 ∧
    (classify cfg cs now u remote).1.intent ∈
      [Intent.CONFIRM, Intent.CANCEL, Intent.UNKNOWN] := by
  have h : classify cfg cs now u remote = (⟨fallbackClassify u, 0.7, true⟩, cs, 0) := by
    unfold classify
    rw [hmode]
    simp [ht]
  refine ⟨h, by rw [h], ?_⟩
  rw [h]
  cases hf : fallbackClassify u <;> simp [hf]

/-- Witness for C4: circuit open until instant 100, call at instant 50 with
the remote unreachable; the fallback classifies the scenario utterance. -/
theorem open_circuit_skips_remote_witness :
    classify cfg0 cs0 50 "confirmo mi hora" none =
      (⟨Intent.CONFIRM, 0.7, true⟩, cs0, 0) := by
  have h := open_circuit_skips_remote cfg0 cs0 50 "confirmo mi hora" none rfl (by decide)
  rw [h.1]
  rfl

/-- C6: classify returns a confidence inside the interval 0.8 to 0.95
exactly when the primary remote call was attempted and succeeded (its
documented confidence range being the hypothesis), and whenever the remote
path does not succeed it returns the deterministic regex fallback with
confidence exactly 0.7 tagged fallback-sourced. -/
theorem classify_confidence_split (cfg : CircuitConfig) (cs : CircuitState) (now : Nat)
    (u : String) (remote : Option (Intent × ℚ))
    (hr : ∀ p : Intent × ℚ, remote = some p → (0.8 : ℚ) ≤ p.2 ∧ p.2 ≤ 0.95) :
    (((0.8 : ℚ) ≤ (classify cfg cs now u remote).1.confidence ∧
        (classify cfg cs now u remote).1.confidence ≤ 0.95) ↔
      ((classify cfg cs now u remote).2.2 = 1 ∧ remote.isSome = true)) ∧
    ((classify cfg cs now u remote).1.fromFallback = true →
      (classify cfg cs now u remote).1.intent = fallbackClassify u ∧
      (classify cfg cs now u remote).1.confidence = 0.7) ∧
    ((classify cfg cs now u remote).1.fromFallback = false ↔
      ((classify cfg cs now u remote).2.2 = 1 ∧ remote.isSome = true)) := by
  rcases remote with _ | ⟨i, c⟩
  · have h : (classify cfg cs now u none).1 = ⟨fallbackClassify u, 0.7, true⟩ ∧
        ((classify cfg cs now u none).2.2 = 0 ∨ (classify cfg cs now u none).2.2 = 1) := by
      unfold classify
      cases hm : cs.mode
      · exact ⟨rfl, Or.inr rfl⟩
      · by_cases hlt : now < cs.nextRetryTime
        · simp [hlt]
        · simp [hlt]
      · exact ⟨rfl, Or.inr rfl⟩
    rw [h.1]
    refine ⟨?_, fun _ => ⟨rfl, rfl⟩, ?_⟩
    · simp only [Option.isSome_none]
      constructor
      · rintro ⟨h1, _⟩
        exfalso
        norm_num at h1
      · rintro ⟨_, h2⟩
        exact absurd h2 (by decide)
    · simp
  · have hc := hr (i, c) rfl
    by_cases hopen : cs.mode = CircuitMode.OPEN ∧ now < cs.nextRetryTime
    · have h : classify cfg cs now u (some (i, c)) =
          (⟨fallbackClassify u, 0.7, true⟩, cs, 0) := by
        unfold classify
        rw [hopen.1]
        simp [hopen.2]
      rw [h]
      refine ⟨?_, fun _ => ⟨rfl, rfl⟩, ?_⟩
      · constructor
        · rintro ⟨h1, _⟩
          exfalso
          norm_num at h1
        · rintro ⟨h2, _⟩
          exact absurd h2 (by norm_num)
      · constructor
        · intro h2
          exact absurd h2 (by norm_num)
        · rintro ⟨h2, _⟩
          exact absurd h2 (by norm_num)
    · have h : classify cfg cs now u (some (i, c)) =
          (⟨i, c, false⟩, recordSuccess cs, 1) := by
        unfold classify
        cases hm : cs.mode
        · rfl
        · have hlt : ¬now < cs.nextRetryTime := fun hl => hopen ⟨hm, hl⟩
          simp [hlt]
        · rfl
      rw [h]
      exact ⟨⟨fun _ => ⟨rfl, rfl⟩, fun _ => hc⟩, fun hff => absurd hff (by norm_num),
        ⟨fun _ => ⟨rfl, rfl⟩, fun _ => rfl⟩⟩

/-- Witness for C6 at a concrete input: closed circuit, remote succeeds with
confidence 0.9. -/
theorem classify_confidence_split_witness :
    (0.8 : ℚ) ≤ (classify cfg0 cs1 0 "dale" (some (Intent.CONFIRM, 0.9))).1.confidence ∧
      (classify cfg0 cs1 0 "dale" (some (Intent.CONFIRM, 0.9))).1.confidence ≤ 0.95 := by
  have h := classify_confidence_split cfg0 cs1 0 "dale" (some (Intent.CONFIRM, 0.9))
    (by
      intro p hp
      have h2 := Option.some.inj hp
      rw [← h2]
      norm_num)
  exact h.1.mpr ⟨rfl, rfl⟩

lemma bookRepeat_of_conflict (db : List PAppt) (docId pid s dur : Nat)
    (hdur : dur ≠ 0) (hc : conflictExists db docId s dur = true) :
    ∀ n, bookRepeat db docId pid s dur n = (db, 0, n) := by
  intro n
  induction n with
  | zero => rfl
  | succ m ih =>
      have hb : book db docId pid s dur = Except.error BookingError.SlotConflictError := by
        unfold book
        simp [hdur, hc]
      unfold bookRepeat
      rw [hb, ih]

/-- C2: when the requested slot is initially free, N serialized identical
book calls for the same doctor and slot (the per-doctor lock serializes
concurrent callers) yield exactly one successful appointment and N minus 1
SlotConflictError failures, for every N at least 1. -/
theorem concurrent_book_single_winner (db : List PAppt) (docId pid s dur n : Nat)
    (hdur : 0 < dur) (hfree : conflictExists db docId s dur = false) (hn : 1 ≤ n) :
    (bookRepeat db docId pid s dur n).2.1 = 1 ∧
    (bookRepeat db docId pid s dur n).2.2 = n - 1 := by
  obtain ⟨m, rfl⟩ : ∃ m, n = m + 1 := ⟨n - 1, by omega⟩
  have hdur' : dur ≠ 0 := by omega
  have hb : book db docId pid s dur =
      Except.ok (⟨freshId db, docId, pid, s, dur, Status.PENDING⟩ :: db) := by
    unfold book
    simp [hdur', hfree]
  have hc2 : conflictExists (⟨freshId db, docId, pid, s, dur, Status.PENDING⟩ :: db)
      docId s dur = true := by
    unfold conflictExists
    rw [List.any_cons]
    have hhead : (decide (docId = docId) && activeStatus Status.PENDING &&
        overlapB s (s + dur) s (s + dur)) = true := by
      simp [activeStatus, overlapB]
      omega
    rw [hhead]
    rfl
  unfold bookRepeat
  rw [hb]
  dsimp only
  rw [bookRepeat_of_conflict _ _ _ _ _ hdur' hc2 m]
  simp

/-- Witness for C2: three identical bookings of the free 09:00 slot yield
one success and two conflicts. -/
theorem concurrent_book_single_winner_witness :
    (bookRepeat [] 1 2 540 20 3).2.1 = 1 ∧ (bookRepeat [] 1 2 540 20 3).2.2 = 3 - 1 :=
  concurrent_book_single_winner [] 1 2 540 20 3 (by decide) (by decide) (by decide)

lemma transition_source_active {st : Status} {e : TransitionEvent} {now start : Nat}
    {s2 : Status} (h : transition st e now start = some s2) : activeStatus st = true := by
  cases st <;> cases e <;> simp [transition] at h <;> decide

lemma book_preserves (db db2 : List PAppt) (docId pid s dur : Nat)
    (hinv : noOverlapDb db = true) (hok : book db docId pid s dur = Except.ok db2) :
    noOverlapDb db2 = true := by
  unfold book at hok
  by_cases h0 : dur = 0
  · simp [h0] at hok
  · rw [if_neg h0] at hok
    by_cases hc : conflictExists db docId s dur = true
    · simp [hc] at hok
    · rw [Bool.not_eq_true] at hc
      rw [hc] at hok
      simp only [Bool.false_eq_true, if_false] at hok
      rw [← Except.ok.inj hok]
      rw [noOverlapDb_eq_true] at hinv ⊢
      refine List.pairwise_cons.mpr ⟨?_, hinv⟩
      intro b hb
      rw [conflictExists_eq_false] at hc
      have hnb := hc b hb
      rw [← Bool.not_eq_true, apptsOverlap_eq_true]
      rintro ⟨h1, _, h3, h4, h5⟩
      exact hnb ⟨h1.symm, h3, h5, h4⟩

lemma rescheduleDb_preserves (db : List PAppt) (aid ns : Nat)
    (r : List PAppt × List Status)
    (hinv : noOverlapDb db = true)
    (hok : rescheduleDb db aid ns = Except.ok r) :
    noOverlapDb r.1 = true := by
  unfold rescheduleDb at hok
  cases hfind : db.find? (fun b => decide (b.id = aid)) with
  | none =>
      rw [hfind] at hok
      exact absurd hok (by simp)
  | some a =>
      rw [hfind] at hok
      dsimp only at hok
      by_cases hc : conflictExists (db.filter (fun b => decide (b.id ≠ aid)))
          a.doctorId ns a.duration = true
      · rw [if_pos hc] at hok
        exact absurd hok (by simp)
      · rw [if_neg hc] at hok
        rw [← Except.ok.inj hok]
        rw [Bool.not_eq_true] at hc
        rw [noOverlapDb_eq_true]
        refine List.pairwise_cons.mpr
          ⟨?_, List.Pairwise.sublist (List.filter_sublist db) (noOverlapDb_eq_true.mp hinv)⟩
        intro b hb
        rw [conflictExists_eq_false] at hc
        have hnb := hc b hb
        rw [← Bool.not_eq_true, apptsOverlap_eq_true]
        rintro ⟨h1, _, h3, h4, h5⟩
        exact hnb ⟨h1.symm, h3, h5, h4⟩

lemma transitionDb_preserves (db : List PAppt) (aid : Nat) (e : TransitionEvent)
    (now : Nat) (db2 : List PAppt)
    (hinv : noOverlapDb db = true)
    (hok : transitionDb db aid e now = Except.ok db2) :
    noOverlapDb db2 = true := by
  unfold transitionDb at hok
  cases hfind : db.find? (fun b => decide (b.id = aid)) with
  | none =>
      rw [hfind] at hok
      exact absurd hok (by simp)
  | some a =>
      rw [hfind] at hok
      dsimp only at hok
      cases htr : transition a.status e now a.start with
      | none =>
          rw [htr] at hok
          exact absurd hok (by simp)
      | some s2 =>
          rw [htr] at hok
          dsimp only at hok
          have hactive := transition_source_active htr
          have hstep : ∀ b ∈ db.filter (fun x => decide (x.id ≠ aid)),
              apptsOverlap a b = false := by
            intro b hb
            rw [List.mem_filter] at hb
            have hbid : b.id ≠ aid := by simpa using hb.2
            have haid : a.id = aid := by simpa using List.find?_some hfind
            have hne : a ≠ b := fun hab => hbid (by rw [← hab, haid])
            exact pairwise_overlap_of_mem (noOverlapDb_eq_true.mp hinv)
              (List.mem_of_find?_eq_some hfind) hb.1 hne
          have htail : List.Pairwise (fun x y => apptsOverlap x y = false)
              (db.filter (fun b => decide (b.id ≠ aid))) :=
            List.Pairwise.sublist (List.filter_sublist db) (noOverlapDb_eq_true.mp hinv)
          cases e with
          | resched n =>
              by_cases hc : conflictExists (db.filter (fun b => decide (b.id ≠ aid)))
                  a.doctorId (eventNewStart a (TransitionEvent.resched n)) a.duration = true
              · rw [if_pos hc] at hok
                exact absurd hok (by simp)
              · rw [if_neg hc] at hok
                rw [← Except.ok.inj hok]
                rw [Bool.not_eq_true] at hc
                rw [noOverlapDb_eq_true]
                refine List.pairwise_cons.mpr ⟨?_, htail⟩
                intro b hb
                rw [conflictExists_eq_false] at hc
                have hnb := hc b hb
                rw [← Bool.not_eq_true, apptsOverlap_eq_true]
                rintro ⟨h1, _, h3, h4, h5⟩
                exact hnb ⟨h1.symm, h3, h5, h4⟩
          | confirm =>
              rw [← Except.ok.inj hok]
              rw [noOverlapDb_eq_true]
              refine List.pairwise_cons.mpr ⟨?_, htail⟩
              intro b hb
              have hab := hstep b hb
              rw [← Bool.not_eq_true, apptsOverlap_eq_true] at hab ⊢
              rintro ⟨h1, _, h3, h4, h5⟩
              exact hab ⟨h1, hactive, h3, h4, h5⟩
          | cancel =>
              rw [← Except.ok.inj hok]
              rw [noOverlapDb_eq_true]
              refine List.pairwise_cons.mpr ⟨?_, htail⟩
              intro b hb
              have hab := hstep b hb
              rw [← Bool.not_eq_true, apptsOverlap_eq_true] at hab ⊢
              rintro ⟨h1, _, h3, h4, h5⟩
              exact hab ⟨h1, hactive, h3, h4, h5⟩
          | complete =>
              rw [← Except.ok.inj hok]
              rw [noOverlapDb_eq_true]
              refine List.pairwise_cons.mpr ⟨?_, htail⟩
              intro b hb
              have hab := hstep b hb
              rw [← Bool.not_eq_true, apptsOverlap_eq_true] at hab ⊢
              rintro ⟨h1, _, h3, h4, h5⟩
              exact hab ⟨h1, hactive, h3, h4, h5⟩
          | noShow =>
              rw [← Except.ok.inj hok]
              rw [noOverlapDb_eq_true]
              refine List.pairwise_cons.mpr ⟨?_, htail⟩
              intro b hb
              have hab := hstep b hb
              rw [← Bool.not_eq_true, apptsOverlap_eq_true] at hab ⊢
              rintro ⟨h1, _, h3, h4, h5⟩
              exact hab ⟨h1, hactive, h3, h4, h5⟩

/-- C1: at every persisted state reachable through the core operations, no
two appointments of the same doctor with status PENDING or CONFIRMED have
overlapping half-open intervals, and each single core operation (book,
reschedule, status transition) preserves that invariant. -/
theorem persisted_no_double_booking :
    (∀ db, Reachable db → noOverlapDb db = true) ∧
    (∀ db o db2, noOverlapDb db = true → applyOp db o = Except.ok db2 →
      noOverlapDb db2 = true) := by
  have hpres : ∀ db o db2, noOverlapDb db = true → applyOp db o = Except.ok db2 →
      noOverlapDb db2 = true := by
    intro db o db2 hinv hok
    cases o with
    | opBook docId pid s dur => exact book_preserves db db2 docId pid s dur hinv hok
    | opResched aid nss =>
        unfold applyOp at hok
        dsimp only at hok
        cases hr : rescheduleDb db aid nss with
        | error err =>
            rw [hr] at hok
            exact absurd hok (by simp [Except.map])
        | ok r =>
            rw [hr] at hok
            have h2 : r.1 = db2 := by simpa [Except.map] using hok
            rw [← h2]
            exact rescheduleDb_preserves db aid nss r hinv hr
    | opTransitionReq aid e now => exact transitionDb_preserves db aid e now db2 hinv hok
  refine ⟨?_, hpres⟩
  intro db h
  induction h with
  | empty => rfl
  | step o hr hok ih => exact hpres _ o _ ih hok

/-- Witness for C1: the state reached by booking the 09:20 slot from the
empty store is reachable and satisfies the invariant. -/
theorem persisted_no_double_booking_witness :
    noOverlapDb [(⟨0, 1, 7, 560, 20, Status.PENDING⟩ : PAppt)] = true :=
  persisted_no_double_booking.1 [⟨0, 1, 7, 560, 20, Status.PENDING⟩]
    (Reachable.step (Op.opBook 1 7 560 20) Reachable.empty rfl)

end SmartSalud
